import Mathlib

/- Formal model of src/backtester_py/data.py: the HistoricCSVDataHandler class.

   Modelling choices (shallow embedding):
   - Timestamps are Nat (the parsed datetime index is only used as an ordered
     key) and prices are Int.
   - A pandas dataframe row is a Row record; the per-symbol parsed CSV content
     is a function String -> List (Nat x Row) giving, for each symbol, the rows
     of its file (timestamp first, as in the datetime index column).
   - reindex(..., method=pad) produces an all-NaN row for canonical timestamps
     earlier than every native timestamp of a symbol; such a row is modelled as
     none, a present row as some Row.
   - The iterrows iterator stored in symbol_data[s] after reindexing is
     modelled as the materialized aligned list plus a cursor giving the
     position of the iterator.  _get_new_bar builds a fresh generator on every
     call, but that generator wraps the shared iterator, so each
     next(self._get_new_bar(s)) pulls exactly one item from the shared
     iterator; pullBar below is that net effect.
   - Python exceptions are an explicit PyError value; accessors return Except.
-/

/-- One parsed CSV row: the non-index columns of the dataframe built in
HistoricCSVDataHandler._open_convert_csv_files (the names list, data.py lines
125-128).  The Python column name open is a Lean keyword, hence the trailing
underscore; the string-indexed access used by getattr is getattrVal below. -/
structure Row where
  open_ : Int
  high : Int
  low : Int
  close : Int
  adj_close : Int
  volume : Int
deriving DecidableEq, Inhabited

/-- Python exceptions that the data.py accessors can raise: KeyError from a
dict lookup with an unregistered symbol, IndexError from bars_list[-1] on an
empty history buffer, AttributeError from getattr with an unknown field. -/
inductive PyError where
  | keyError
  | indexError
  | attributeError
deriving DecidableEq

/-- Modelled from the spec: event.py is not under src/ (data.py only imports
MarketEvent from it).  The spec, sections 4.3 and 6, describes the emitted
notification as a type-tagged marker carrying no payload, so MarketEvent is a
single payload-free constructor. -/
inductive MarketEvent where
  | mk
deriving DecidableEq

/-- Ordering of dataframe rows by the datetime index, the sort key of
sort_values on data.py line 129. -/
def tsLe (a b : Nat × Row) : Prop := a.1 ≤ b.1

instance : DecidableRel tsLe := fun a b => Nat.decLe a.1 b.1

instance : IsTotal (Nat × Row) tsLe := ⟨fun a b => Nat.le_total a.1 b.1⟩

instance : IsTrans (Nat × Row) tsLe := ⟨fun _ _ _ h1 h2 => Nat.le_trans h1 h2⟩

/-- Model of sort_values by the datetime index (data.py line 129): sort the
parsed rows of one file ascending by timestamp. -/
def sortByTs (l : List (Nat × Row)) : List (Nat × Row) := List.insertionSort tsLe l

/-- Model of the pandas reindex(..., method=pad) lookup on a series sorted
ascending by timestamp: the row at the largest native timestamp that is <= t,
and none (an all-NaN row) when every native timestamp is greater than t. -/
def padLookup (series : List (Nat × Row)) (t : Nat) : Option Row :=
  ((series.filter fun p => decide (p.1 ≤ t)).getLast?).map Prod.snd

/-- The state of a HistoricCSVDataHandler.  The per-symbol dicts symbol_data
and latest_symbol_data are modelled as total functions; entries outside
symbol_list are never consulted because every dict access in data.py is over
keys created from symbol_list at construction.  aligned s is the reindexed
series of s, cursor s the position of the shared iterrows iterator of s,
latest_symbol_data s the history buffer, events the external event queue. -/
structure Handler where
  symbol_list : List String
  aligned : String → List (Nat × Option Row)
  cursor : String → Nat
  latest_symbol_data : String → List (Nat × Option Row)
  continue_backtest : Bool
  events : List MarketEvent
deriving Inhabited

/-- The comb_index actually computed by _open_convert_csv_files.  The if block
on data.py lines 145-150 is OUTSIDE the loading loop: it runs once, with the
loop variable s still bound to the LAST symbol of symbol_list, and comb_index
is still None at that point, so comb_index becomes the last symbol's own
sorted native index.  (The union call on line 148 is unreachable and discards
its result anyway.)  For an empty symbol list the loop variable is unbound and
line 146 raises NameError, modelled as none. -/
def combIndex (syms : List String) (data : String → List (Nat × Row)) : Option (List Nat) :=
  (syms.getLast?).map fun sN => (sortByTs (data sN)).map Prod.fst

/-- Reindexing of every symbol's sorted series onto the combined index with
forward fill, data.py lines 152-154. -/
def alignedOf (data : String → List (Nat × Row)) (sN : String) :
    String → List (Nat × Option Row) :=
  fun s => ((sortByTs (data sN)).map Prod.fst).map
    fun t => (t, padLookup (sortByTs (data s)) t)

/-- Construction: __init__ together with _open_convert_csv_files.  A reindex
with a fill method needs a duplicate-free source index (pandas raises: cannot
reindex from a duplicate axis), and an empty symbol list hits the unbound loop
variable (NameError); both abort construction, modelled as none.  Otherwise
every cursor starts at 0, every history buffer is empty, continue_backtest is
True (line 108) and nothing has been put on the event queue. -/
def mkHandler (syms : List String) (data : String → List (Nat × Row)) : Option Handler :=
  match syms.getLast? with
  | none => none
  | some sN =>
    if syms.all (fun s => decide ((sortByTs (data s)).map Prod.fst).Nodup) then
      some ⟨syms, alignedOf data sN, fun _ => 0, fun _ => [], true, []⟩
    else none

/-- Model of getattr(row_series, val_type): the recognized column names of the
row give the stored cell (NaN, i.e. none, throughout an all-NaN padding row);
any other attribute name raises AttributeError. -/
def getattrVal (r : Option Row) (val_type : String) : Except PyError (Option Int) :=
  if val_type = "open" then .ok (r.map Row.open_)
  else if val_type = "high" then .ok (r.map Row.high)
  else if val_type = "low" then .ok (r.map Row.low)
  else if val_type = "close" then .ok (r.map Row.close)
  else if val_type = "adj_close" then .ok (r.map Row.adj_close)
  else if val_type = "volume" then .ok (r.map Row.volume)
  else .error .attributeError

/-- Python list slicing bars_list[-N:] for a nonnegative N: for N = 0 the
slice is bars_list[0:], the whole list; otherwise the last N elements (all of
them when N exceeds the length).  Used by get_latest_bars, data.py line 193. -/
def pySliceLast {α : Type} (l : List α) (N : Nat) : List α :=
  if N = 0 then l else l.drop (l.length - N)

/-- get_latest_bar, data.py lines 171-181: dict lookup (KeyError is re-raised
for an unregistered symbol), then bars_list[-1] (IndexError when empty). -/
def get_latest_bar (h : Handler) (symbol : String) : Except PyError (Nat × Option Row) :=
  if symbol ∈ h.symbol_list then
    match (h.latest_symbol_data symbol).getLast? with
    | some b => .ok b
    | none => .error .indexError
  else .error .keyError

/-- get_latest_bars, data.py lines 182-193: dict lookup, then the slice
bars_list[-N:], which never raises. -/
def get_latest_bars (h : Handler) (symbol : String) (N : Nat) :
    Except PyError (List (Nat × Option Row)) :=
  if symbol ∈ h.symbol_list then .ok (pySliceLast (h.latest_symbol_data symbol) N)
  else .error .keyError

/-- get_latest_bar_datetime, data.py lines 196-210: bars_list[-1][0], the
timestamp component of the last buffered bar. -/
def get_latest_bar_datetime (h : Handler) (symbol : String) : Except PyError Nat :=
  if symbol ∈ h.symbol_list then
    match (h.latest_symbol_data symbol).getLast? with
    | some b => .ok b.1
    | none => .error .indexError
  else .error .keyError

/-- get_latest_bar_value, data.py lines 212-223: bars_list[-1] is evaluated
first (IndexError on an empty buffer, before the field name is looked at),
then getattr(bars_list[-1][1], val_type). -/
def get_latest_bar_value (h : Handler) (symbol : String) (val_type : String) :
    Except PyError (Option Int) :=
  if symbol ∈ h.symbol_list then
    match (h.latest_symbol_data symbol).getLast? with
    | some b => getattrVal b.2 val_type
    | none => .error .indexError
  else .error .keyError

/-- get_latest_bars_values, data.py lines 225-243: delegates to
get_latest_bars (whose KeyError is re-raised), then maps getattr over the
returned bars; an AttributeError inside the comprehension propagates. -/
def get_latest_bars_values (h : Handler) (symbol : String) (val_type : String) (N : Nat) :
    Except PyError (List (Option Int)) :=
  (get_latest_bars h symbol N).bind fun bars => bars.mapM fun b => getattrVal b.2 val_type

/-- One iteration of the update_bars loop body for symbol s, data.py lines
256-263: next(self._get_new_bar(s)) pulls one item from the shared iterrows
iterator of s; on StopIteration the continuation flag is cleared, otherwise
the item (never None, it is an (index, row) pair) is appended to the history
buffer of s. -/
def pullBar (acc : Handler) (s : String) : Handler :=
  match (acc.aligned s)[acc.cursor s]? with
  | none => { acc with continue_backtest := false }
  | some bar =>
    { acc with
      cursor := fun x => if x = s then acc.cursor x + 1 else acc.cursor x,
      latest_symbol_data := fun x =>
        if x = s then acc.latest_symbol_data x ++ [bar] else acc.latest_symbol_data x }

/-- update_bars, data.py lines 245-264: run the loop body over symbol_list in
registration order, then put exactly one MarketEvent on the event queue. -/
def update_bars (h : Handler) : Handler :=
  let h2 := h.symbol_list.foldl pullBar h
  { h2 with events := h2.events ++ [MarketEvent.mk] }

/-- k successive update_bars calls. -/
def stepN (h : Handler) : Nat → Handler
  | 0 => h
  | k + 1 => update_bars (stepN h k)

/-- Follows the spec words, for comparison with combIndex: the ascending
sorted union of every symbol's native timestamp set (spec sections 3 and 4.2
step 2). -/
def specCanonicalIndex (syms : List String) (data : String → List (Nat × Row)) : List Nat :=
  List.insertionSort (fun a b => a ≤ b)
    ((syms.foldr (fun s acc => (data s).map Prod.fst ++ acc) []).dedup)

/-- A row whose four price columns all carry the same value c. -/
def rowOfClose (c : Int) : Row := ⟨c, c, c, c, c, 1⟩

def rA1 : Row := rowOfClose 10

def rA2 : Row := rowOfClose 11

def rA3 : Row := rowOfClose 13

def rB1 : Row := rowOfClose 100

def rB2 : Row := rowOfClose 102

def rB3 : Row := rowOfClose 104

/-- The two-symbol scenario of spec section 8: A has native timestamps 1,2,4
and B has native timestamps 1,3,4. -/
def exSyms : List String := ["A", "B"]

def exData : String → List (Nat × Row) := fun s =>
  if s = "A" then [(1, rA1), (2, rA2), (4, rA3)]
  else if s = "B" then [(1, rB1), (3, rB2), (4, rB3)]
  else []

def exH : Handler := (mkHandler exSyms exData).getD default

/-- A scenario where the combined index reaches back before the first native
timestamp of symbol A: A starts at timestamp 2 while B (the last symbol, whose
index becomes the combined index) starts at timestamp 1. -/
def c3Syms : List String := ["A", "B"]

def c3Data : String → List (Nat × Row) := fun s =>
  if s = "A" then [(2, rA2)]
  else if s = "B" then [(1, rB1), (2, rB2)]
  else []

def c3H : Handler := (mkHandler c3Syms c3Data).getD default

/- Helper lemmas about one pullBar iteration. -/

lemma take_one_cons {α : Type} (a : α) (l : List α) : (a :: l).take 1 = [a] := rfl

lemma pullBar_symbol_list (h : Handler) (s : String) :
    (pullBar h s).symbol_list = h.symbol_list := by
  unfold pullBar; split <;> rfl

lemma pullBar_aligned (h : Handler) (s : String) :
    (pullBar h s).aligned = h.aligned := by
  unfold pullBar; split <;> rfl

lemma pullBar_events (h : Handler) (s : String) :
    (pullBar h s).events = h.events := by
  unfold pullBar; split <;> rfl

lemma pullBar_cursor_ne (h : Handler) (s x : String) (hx : x ≠ s) :
    (pullBar h s).cursor x = h.cursor x := by
  unfold pullBar; split
  · rfl
  · simp [hx]

lemma pullBar_lsd_ne (h : Handler) (s x : String) (hx : x ≠ s) :
    (pullBar h s).latest_symbol_data x = h.latest_symbol_data x := by
  unfold pullBar; split
  · rfl
  · simp [hx]

lemma pullBar_cursor_self (h : Handler) (s : String) :
    (pullBar h s).cursor s
      = if h.cursor s < (h.aligned s).length then h.cursor s + 1 else h.cursor s := by
  unfold pullBar
  rcases Nat.lt_or_ge (h.cursor s) ((h.aligned s).length) with hlt | hge
  · rw [List.getElem?_eq_getElem hlt]; simp [hlt]
  · rw [List.getElem?_eq_none hge]; simp [Nat.not_lt.mpr hge]

lemma pullBar_lsd_self (h : Handler) (s : String) :
    (pullBar h s).latest_symbol_data s
      = h.latest_symbol_data s ++ ((h.aligned s).drop (h.cursor s)).take 1 := by
  unfold pullBar
  rcases Nat.lt_or_ge (h.cursor s) ((h.aligned s).length) with hlt | hge
  · rw [List.getElem?_eq_getElem hlt, List.drop_eq_getElem_cons hlt, take_one_cons]; simp
  · rw [List.getElem?_eq_none hge, List.drop_eq_nil_of_le hge]; simp

lemma pullBar_flag (h : Handler) (s : String) :
    (pullBar h s).continue_backtest
      = (h.continue_backtest && decide (h.cursor s < (h.aligned s).length)) := by
  unfold pullBar
  rcases Nat.lt_or_ge (h.cursor s) ((h.aligned s).length) with hlt | hge
  · rw [List.getElem?_eq_getElem hlt]; simp [hlt]
  · rw [List.getElem?_eq_none hge]; simp [Nat.not_lt.mpr hge]

/- Helper lemmas about the foldl over the whole symbol list. -/

lemma foldl_pullBar_aligned : ∀ (L : List String) (h : Handler),
    (L.foldl pullBar h).aligned = h.aligned := by
  intro L
  induction L with
  | nil => intro h; rfl
  | cons a L ih => intro h; rw [List.foldl_cons, ih, pullBar_aligned]

lemma foldl_pullBar_symbol_list : ∀ (L : List String) (h : Handler),
    (L.foldl pullBar h).symbol_list = h.symbol_list := by
  intro L
  induction L with
  | nil => intro h; rfl
  | cons a L ih => intro h; rw [List.foldl_cons, ih, pullBar_symbol_list]

lemma foldl_pullBar_events : ∀ (L : List String) (h : Handler),
    (L.foldl pullBar h).events = h.events := by
  intro L
  induction L with
  | nil => intro h; rfl
  | cons a L ih => intro h; rw [List.foldl_cons, ih, pullBar_events]

lemma foldl_pullBar_not_mem : ∀ (L : List String) (h : Handler) (s : String), s ∉ L →
    (L.foldl pullBar h).cursor s = h.cursor s ∧
    (L.foldl pullBar h).latest_symbol_data s = h.latest_symbol_data s := by
  intro L
  induction L with
  | nil => intro h s _; exact ⟨rfl, rfl⟩
  | cons a L ih =>
    intro h s hs
    rw [List.foldl_cons]
    have hne : s ≠ a := fun hEq => hs (hEq ▸ List.mem_cons_self a L)
    obtain ⟨h1, h2⟩ := ih (pullBar h a) s (fun hmem => hs (List.mem_cons_of_mem a hmem))
    exact ⟨h1.trans (pullBar_cursor_ne h a s hne), h2.trans (pullBar_lsd_ne h a s hne)⟩

lemma foldl_pullBar_mem : ∀ (L : List String) (h : Handler) (s : String), L.Nodup → s ∈ L →
    (L.foldl pullBar h).cursor s
      = (if h.cursor s < (h.aligned s).length then h.cursor s + 1 else h.cursor s) ∧
    (L.foldl pullBar h).latest_symbol_data s
      = h.latest_symbol_data s ++ ((h.aligned s).drop (h.cursor s)).take 1 := by
  intro L
  induction L with
  | nil => intro h s _ hs; exact absurd hs (List.not_mem_nil s)
  | cons a L ih =>
    intro h s hnd hs
    rw [List.foldl_cons]
    rcases List.mem_cons.mp hs with hsa | hsL
    · subst hsa
      have hnot : s ∉ L := (List.nodup_cons.mp hnd).1
      obtain ⟨h1, h2⟩ := foldl_pullBar_not_mem L (pullBar h s) s hnot
      exact ⟨h1.trans (pullBar_cursor_self h s), h2.trans (pullBar_lsd_self h s)⟩
    · have hne : s ≠ a := fun hEq => (List.nodup_cons.mp hnd).1 (hEq ▸ hsL)
      obtain ⟨h1, h2⟩ := ih (pullBar h a) s (List.nodup_cons.mp hnd).2 hsL
      constructor
      · rw [h1, pullBar_cursor_ne h a s hne, pullBar_aligned]
      · rw [h2, pullBar_lsd_ne h a s hne, pullBar_cursor_ne h a s hne, pullBar_aligned]

lemma list_all_congr {α : Type} (f g : α → Bool) : ∀ (L : List α),
    (∀ a ∈ L, f a = g a) → L.all f = L.all g := by
  intro L
  induction L with
  | nil => intro _; rfl
  | cons a L ih =>
    intro hfg
    rw [List.all_cons, List.all_cons, hfg a (List.mem_cons_self a L),
      ih (fun b hb => hfg b (List.mem_cons_of_mem a hb))]

lemma foldl_pullBar_flag : ∀ (L : List String) (h : Handler), L.Nodup →
    (L.foldl pullBar h).continue_backtest
      = (h.continue_backtest && L.all fun s => decide (h.cursor s < (h.aligned s).length)) := by
  intro L
  induction L with
  | nil => intro h _; simp
  | cons a L ih =>
    intro h hnd
    rw [List.foldl_cons, ih (pullBar h a) (List.nodup_cons.mp hnd).2, pullBar_flag]
    have hcong :
        (L.all fun s => decide ((pullBar h a).cursor s < (((pullBar h a).aligned) s).length))
          = (L.all fun s => decide (h.cursor s < (h.aligned s).length)) := by
      apply list_all_congr
      intro s hsL
      have hne : s ≠ a := fun hEq => (List.nodup_cons.mp hnd).1 (hEq ▸ hsL)
      rw [pullBar_cursor_ne h a s hne, pullBar_aligned]
    rw [hcong, List.all_cons, Bool.and_assoc]

lemma foldl_pullBar_flag_false : ∀ (L : List String) (h : Handler),
    h.continue_backtest = false → (L.foldl pullBar h).continue_backtest = false := by
  intro L
  induction L with
  | nil => intro h hf; exact hf
  | cons a L ih =>
    intro h hf
    rw [List.foldl_cons]
    exact ih (pullBar h a) (by rw [pullBar_flag, hf, Bool.false_and])

lemma foldl_pullBar_exhausted : ∀ (L : List String) (h : Handler),
    (∀ s ∈ L, (h.aligned s).length ≤ h.cursor s) →
    (L.foldl pullBar h).cursor = h.cursor ∧
    (L.foldl pullBar h).latest_symbol_data = h.latest_symbol_data := by
  intro L
  induction L with
  | nil => intro h _; exact ⟨rfl, rfl⟩
  | cons a L ih =>
    intro h hex
    rw [List.foldl_cons]
    have hx : (h.aligned a)[h.cursor a]? = none :=
      List.getElem?_eq_none (hex a (List.mem_cons_self a L))
    have hpb : pullBar h a = { h with continue_backtest := false } := by
      unfold pullBar; rw [hx]
    rw [hpb]
    exact ih _ (fun s hsL => hex s (List.mem_cons_of_mem a hsL))

/- Helper lemmas lifting the foldl facts to update_bars and stepN. -/

lemma update_bars_aligned (h : Handler) : (update_bars h).aligned = h.aligned :=
  foldl_pullBar_aligned h.symbol_list h

lemma update_bars_symbol_list (h : Handler) :
    (update_bars h).symbol_list = h.symbol_list :=
  foldl_pullBar_symbol_list h.symbol_list h

lemma update_bars_events_eq (h : Handler) :
    (update_bars h).events = h.events ++ [MarketEvent.mk] := by
  show (h.symbol_list.foldl pullBar h).events ++ [MarketEvent.mk] = h.events ++ [MarketEvent.mk]
  rw [foldl_pullBar_events]

lemma update_bars_cursor_mem (h : Handler) (s : String)
    (hnd : h.symbol_list.Nodup) (hs : s ∈ h.symbol_list) :
    (update_bars h).cursor s
      = (if h.cursor s < (h.aligned s).length then h.cursor s + 1 else h.cursor s) :=
  (foldl_pullBar_mem h.symbol_list h s hnd hs).1

lemma update_bars_lsd_mem (h : Handler) (s : String)
    (hnd : h.symbol_list.Nodup) (hs : s ∈ h.symbol_list) :
    (update_bars h).latest_symbol_data s
      = h.latest_symbol_data s ++ ((h.aligned s).drop (h.cursor s)).take 1 :=
  (foldl_pullBar_mem h.symbol_list h s hnd hs).2

lemma update_bars_flag (h : Handler) (hnd : h.symbol_list.Nodup) :
    (update_bars h).continue_backtest
      = (h.continue_backtest
          && h.symbol_list.all fun s => decide (h.cursor s < (h.aligned s).length)) :=
  foldl_pullBar_flag h.symbol_list h hnd

lemma stepN_aligned (h : Handler) : ∀ k, (stepN h k).aligned = h.aligned := by
  intro k
  induction k with
  | zero => rfl
  | succ k ih => rw [stepN, update_bars_aligned, ih]

lemma stepN_symbol_list (h : Handler) : ∀ k, (stepN h k).symbol_list = h.symbol_list := by
  intro k
  induction k with
  | zero => rfl
  | succ k ih => rw [stepN, update_bars_symbol_list, ih]

lemma stepN_state (h : Handler) (hnd : h.symbol_list.Nodup) (s : String)
    (hs : s ∈ h.symbol_list) (hc : h.cursor s = 0) (hb : h.latest_symbol_data s = []) :
    ∀ k, (stepN h k).cursor s = min k ((h.aligned s).length) ∧
      (stepN h k).latest_symbol_data s = (h.aligned s).take k := by
  intro k
  induction k with
  | zero => exact ⟨by simpa [stepN] using hc, by simpa [stepN] using hb⟩
  | succ k ih =>
    obtain ⟨ihc, ihb⟩ := ih
    have hnd2 : (stepN h k).symbol_list.Nodup := by rw [stepN_symbol_list]; exact hnd
    have hs2 : s ∈ (stepN h k).symbol_list := by rw [stepN_symbol_list]; exact hs
    have hal : (stepN h k).aligned = h.aligned := stepN_aligned h k
    constructor
    · rw [stepN, update_bars_cursor_mem (stepN h k) s hnd2 hs2, hal, ihc]
      by_cases hlt : min k ((h.aligned s).length) < (h.aligned s).length
      · rw [if_pos hlt]; omega
      · rw [if_neg hlt]; omega
    · rw [stepN, update_bars_lsd_mem (stepN h k) s hnd2 hs2, hal, ihb, ihc]
      rcases Nat.lt_or_ge k ((h.aligned s).length) with hlt | hge
      · rw [Nat.min_eq_left (Nat.le_of_lt hlt), List.drop_eq_getElem_cons hlt, take_one_cons,
          List.take_succ, List.getElem?_eq_getElem hlt]
        rfl
      · rw [Nat.min_eq_right hge, List.drop_eq_nil_of_le (Nat.le_refl _),
          List.take_of_length_le hge,
          List.take_of_length_le (show (h.aligned s).length ≤ k + 1 by omega)]
        simp

/- Helper lemmas about construction and about the sorted combined index. -/

lemma mkHandler_some (syms : List String) (data : String → List (Nat × Row))
    (h : Handler) (hmk : mkHandler syms data = some h) :
    h.symbol_list = syms ∧ h.cursor = (fun _ => 0) ∧
    h.latest_symbol_data = (fun _ => ([] : List (Nat × Option Row))) ∧
    h.continue_backtest = true ∧ h.events = [] ∧
    ∃ sN, syms.getLast? = some sN ∧ h.aligned = alignedOf data sN := by
  unfold mkHandler at hmk
  split at hmk
  · exact Option.noConfusion hmk
  · next sN heq =>
    split at hmk
    · cases hmk
      exact ⟨rfl, rfl, rfl, rfl, rfl, sN, heq, rfl⟩
    · exact Option.noConfusion hmk

lemma mem_sortByTs_iff (l : List (Nat × Row)) (p : Nat × Row) :
    p ∈ sortByTs l ↔ p ∈ l :=
  (List.perm_insertionSort tsLe l).mem_iff

lemma sorted_ts_of_sortByTs (l : List (Nat × Row)) :
    ((sortByTs l).map Prod.fst).Sorted (fun a b => a ≤ b) := by
  have hs : (sortByTs l).Sorted tsLe := List.sorted_insertionSort tsLe l
  exact List.Pairwise.map Prod.fst (fun a b hab => hab) hs

/-- C1: the canonical combined index used to reindex every symbol is NOT the
ascending sorted union of the native timestamp sets: on the section 8 scenario
(A native at 1,2,4 and B native at 1,3,4) construction computes the last
symbol's native index [1, 3, 4], while the ascending sorted union of both
native timestamp sets is [1, 2, 3, 4]. -/
theorem comb_index_is_last_symbol_not_union :
    combIndex exSyms exData = some [1, 3, 4] ∧
    specCanonicalIndex exSyms exData = [1, 2, 3, 4] ∧
    ([1, 3, 4] : List Nat) ≠ [1, 2, 3, 4] :=
  ⟨by decide, by decide, by decide⟩

/-- C2: on the scenario of the claim the code aligns onto the index [1, 3, 4]
(the last symbol's native index), giving aligned closes A = [10, 11, 13] and
B = [100, 102, 104]; in particular A differs from the claimed
[10, 11, 11, 13] over the claimed canonical index [1, 2, 3, 4]. -/
theorem aligned_example_eval :
    (mkHandler exSyms exData).map (fun h =>
        ((h.aligned "A").map Prod.fst,
         (h.aligned "A").map (fun p => p.2.map Row.close),
         (h.aligned "B").map (fun p => p.2.map Row.close)))
      = some ([1, 3, 4], [some 10, some 11, some 13], [some 100, some 102, some 104]) ∧
    ([some 10, some 11, some 13] : List (Option Int))
      ≠ [some 10, some 11, some 11, some 13] :=
  ⟨by decide, by decide⟩

/-- C3 counterexample: symbol A is native only from timestamp 2 while the
combined index (from last symbol B) starts at timestamp 1; the claim says the
load must fail, but construction succeeds and the aligned series of A holds a
missing placeholder (none, an all-NaN row) at timestamp 1. -/
theorem load_no_abort_counterexample :
    mkHandler c3Syms c3Data = some c3H ∧
    (1, (none : Option Row)) ∈ c3H.aligned "A" ∧
    (∀ p ∈ c3Data "A", 1 < p.1) :=
  ⟨rfl, by decide, by decide⟩

/-- C3 amended: when a combined-index timestamp precedes a symbol's first
native timestamp, loading does NOT abort; construction fails only for an empty
symbol list (NameError on the unbound loop variable) or duplicated native
timestamps (pandas cannot reindex from a duplicate axis), and the aligned
entry at such a timestamp is none (an all-NaN placeholder row produced by
reindex pad), never a fabricated value. -/
theorem pre_first_native_is_missing :
    (∀ syms data, mkHandler syms data = none →
      syms.getLast? = none ∨
      syms.all (fun s => decide ((sortByTs (data s)).map Prod.fst).Nodup) = false) ∧
    (∀ syms data h s t v, mkHandler syms data = some h →
      (t, v) ∈ h.aligned s → (∀ p ∈ data s, t < p.1) → v = none) := by
  constructor
  · intro syms data hmk
    unfold mkHandler at hmk
    split at hmk
    · next heq => exact Or.inl heq
    · next sN heq =>
      split at hmk
      · exact Option.noConfusion hmk
      · next hcond => exact Or.inr (by simpa using hcond)
  · intro syms data h s t v hmk hmem hbefore
    obtain ⟨-, -, -, -, -, sN, -, hal⟩ := mkHandler_some syms data h hmk
    rw [hal] at hmem
    unfold alignedOf at hmem
    obtain ⟨u, hu, hequ⟩ := List.mem_map.mp hmem
    injection hequ with h1 h2
    subst h1
    rw [← h2]
    unfold padLookup
    have hfil : (sortByTs (data s)).filter (fun p => decide (p.1 ≤ u)) = [] := by
      apply List.filter_eq_nil_iff.mpr
      intro q hq
      have hq2 : q ∈ data s := (mem_sortByTs_iff (data s) q).mp hq
      have hlt := hbefore q hq2
      simp only [decide_eq_true_eq]
      omega
    rw [hfil]
    rfl

/-- C3 amended witness: the amended statement applied to the concrete scenario
of the counterexample. -/
theorem pre_first_native_is_missing_witness :
    mkHandler c3Syms c3Data = some c3H ∧
    (1, (none : Option Row)) ∈ c3H.aligned "A" ∧ (none : Option Row) = none :=
  ⟨rfl, by decide,
    pre_first_native_is_missing.2 c3Syms c3Data c3H "A" 1 none rfl (by decide) (by decide)⟩

/-- C4: with a duplicate-free registration list, one update_bars call appends
to every registered symbol's history buffer exactly the next bar of its
aligned series in index order (and nothing when the series is exhausted); the
cursor advances by exactly one position when not exhausted, stays put when
exhausted, never moves backwards and never passes the series length. -/
theorem update_bars_advances_cursor_by_one (h : Handler) (s : String)
    (hnd : h.symbol_list.Nodup) (hs : s ∈ h.symbol_list) :
    (update_bars h).latest_symbol_data s
      = h.latest_symbol_data s ++ ((h.aligned s).drop (h.cursor s)).take 1 ∧
    (update_bars h).cursor s
      = (if h.cursor s < (h.aligned s).length then h.cursor s + 1 else h.cursor s) ∧
    h.cursor s ≤ (update_bars h).cursor s ∧
    (h.cursor s ≤ (h.aligned s).length →
      (update_bars h).cursor s ≤ (h.aligned s).length) := by
  refine ⟨update_bars_lsd_mem h s hnd hs, update_bars_cursor_mem h s hnd hs, ?_, ?_⟩
  · rw [update_bars_cursor_mem h s hnd hs]
    split <;> omega
  · intro hle
    rw [update_bars_cursor_mem h s hnd hs]
    split <;> omega

/-- C4 witness: the statement applied to symbol A of the freshly constructed
section 8 scenario handler. -/
theorem update_bars_advances_cursor_by_one_witness :
    (update_bars exH).latest_symbol_data "A"
      = exH.latest_symbol_data "A" ++ ((exH.aligned "A").drop (exH.cursor "A")).take 1 ∧
    (update_bars exH).cursor "A"
      = (if exH.cursor "A" < (exH.aligned "A").length
          then exH.cursor "A" + 1 else exH.cursor "A") ∧
    exH.cursor "A" ≤ (update_bars exH).cursor "A" ∧
    (exH.cursor "A" ≤ (exH.aligned "A").length →
      (update_bars exH).cursor "A" ≤ (exH.aligned "A").length) :=
  update_bars_advances_cursor_by_one exH "A" (by decide) (by decide)

/-- C5 counterexample: the canonical index in the spec sense (the sorted
union) of the section 8 scenario is [1, 2, 3, 4], whose 2nd entry is 2, yet
after exactly 2 update_bars calls get_latest_bars for B returns a bar with
timestamp 3, later than that 2nd canonical timestamp. -/
theorem no_lookahead_union_counterexample :
    mkHandler exSyms exData = some exH ∧
    specCanonicalIndex exSyms exData = [1, 2, 3, 4] ∧
    get_latest_bars (stepN exH 2) "B" 2 = Except.ok [(1, some rB1), (3, some rB2)] ∧
    ([1, 2, 3, 4] : List Nat).getD 1 0 < 3 :=
  ⟨rfl, by decide, rfl, by decide⟩

lemma pySliceLast_subset {α : Type} (l : List α) (N : Nat) :
    ∀ x ∈ pySliceLast l N, x ∈ l := by
  intro x hx
  unfold pySliceLast at hx
  split at hx
  · exact hx
  · exact List.drop_subset _ l hx

/-- C5 amended: no lookahead holds with respect to the index the handler
actually aligns on (the last registered symbol's native index): for a handler
from construction with a duplicate-free symbol list, after exactly k
update_bars calls (1 <= k <= aligned length), every bar returned by
get_latest_bars has a timestamp at most the k-th entry of the aligned index,
for every symbol and every N. -/
theorem no_lookahead_wrt_actual_index (syms : List String)
    (data : String → List (Nat × Row)) (h : Handler)
    (hmk : mkHandler syms data = some h) (hnd : syms.Nodup)
    (s : String) (hs : s ∈ syms) (k N : Nat)
    (hk1 : 1 ≤ k) (hk2 : k ≤ (h.aligned s).length)
    (l : List (Nat × Option Row))
    (hl : get_latest_bars (stepN h k) s N = Except.ok l) :
    ∀ b ∈ l, b.1 ≤ ((h.aligned s).map Prod.fst).getD (k - 1) 0 := by
  intro b hb
  obtain ⟨hsl, hcur, hlsd, -, -, sN, hlast, hal⟩ := mkHandler_some syms data h hmk
  have hnd2 : h.symbol_list.Nodup := by rw [hsl]; exact hnd
  have hs2 : s ∈ h.symbol_list := by rw [hsl]; exact hs
  have hst := stepN_state h hnd2 s hs2 (by rw [hcur]) (by rw [hlsd]) k
  have hmem2 : s ∈ (stepN h k).symbol_list := by rw [stepN_symbol_list, hsl]; exact hs
  rw [get_latest_bars, if_pos hmem2] at hl
  injection hl with hleq
  have hbl : b ∈ (h.aligned s).take k := by
    rw [← hleq] at hb
    have hsub := pySliceLast_subset ((stepN h k).latest_symbol_data s) N b hb
    rw [hst.2] at hsub
    exact hsub
  obtain ⟨j, hj, hjb⟩ := List.getElem_of_mem hbl
  have hjk : j < k := by
    have hj2 := hj
    rw [List.length_take] at hj2
    omega
  have hjlen : j < (h.aligned s).length := by omega
  have hjf : j < ((h.aligned s).map Prod.fst).length := by rw [List.length_map]; omega
  have hkf : k - 1 < ((h.aligned s).map Prod.fst).length := by rw [List.length_map]; omega
  have hsort : ((h.aligned s).map Prod.fst).Sorted (fun a b => a ≤ b) := by
    rw [hal]
    unfold alignedOf
    rw [List.map_map]
    have hid : (Prod.fst ∘ fun t => (t, padLookup (sortByTs (data s)) t)) = id := rfl
    rw [hid, List.map_id]
    exact sorted_ts_of_sortByTs (data sN)
  have hle := List.Sorted.rel_get_of_le hsort
    (Fin.mk_le_mk.mpr (show j ≤ k - 1 by omega) : (⟨j, hjf⟩ : Fin _) ≤ ⟨k - 1, hkf⟩)
  have hgj : ((h.aligned s).map Prod.fst).get ⟨j, hjf⟩ = b.1 := by
    rw [List.get_eq_getElem, List.getElem_map Prod.fst]
    rw [show (h.aligned s)[j] = b from by rw [← hjb]; exact (List.getElem_take (h.aligned s)).symm]
  have hgd : ((h.aligned s).map Prod.fst).getD (k - 1) 0
      = ((h.aligned s).map Prod.fst).get ⟨k - 1, hkf⟩ := by
    rw [List.getD_eq_getElem _ _ hkf, List.get_eq_getElem]
  rw [hgd, ← hgj]
  exact hle

/-- C5 amended witness: the amended statement applied to symbol B of the
section 8 scenario after 2 calls, at the bar with timestamp 3. -/
theorem no_lookahead_wrt_actual_index_witness :
    mkHandler exSyms exData = some exH ∧
    (3, some rB2).1 ≤ ((exH.aligned "B").map Prod.fst).getD 1 0 :=
  ⟨rfl,
    no_lookahead_wrt_actual_index exSyms exData exH rfl (by decide) "B" (by decide) 2 2
      (by decide) (by decide) [(1, some rB1), (3, some rB2)] rfl (3, some rB2) (by decide)⟩

/-- C6 counterexample: after 2 calls the history buffer of A holds 2 bars, yet
get_latest_bars with N = 0 returns both bars (the Python slice bars_list[-0:]
is the whole list), not min(0, 2) = 0 bars. -/
theorem get_latest_bars_zero_counterexample :
    get_latest_bars (stepN exH 2) "A" 0 = Except.ok [(1, some rA1), (3, some rA2)] ∧
    ((stepN exH 2).latest_symbol_data "A").length = 2 ∧ (2 : Nat) ≠ min 0 2 :=
  ⟨rfl, by decide, by decide⟩

/-- C6 amended: for every registered symbol and every N >= 1, get_latest_bars
returns exactly min(N, buffer length) bars, namely the suffix of the history
buffer (the most recent revealed bars, oldest first), and never signals an
error however large N is; for N = 0 the Python slice returns the whole buffer
instead of 0 bars. -/
theorem get_latest_bars_min_length (h : Handler) (s : String) (N : Nat)
    (hs : s ∈ h.symbol_list) (hN : 1 ≤ N) :
    get_latest_bars h s N
      = Except.ok ((h.latest_symbol_data s).drop ((h.latest_symbol_data s).length - N)) ∧
    ((h.latest_symbol_data s).drop ((h.latest_symbol_data s).length - N)).length
      = min N (h.latest_symbol_data s).length ∧
    ((h.latest_symbol_data s).drop ((h.latest_symbol_data s).length - N)).IsSuffix
      (h.latest_symbol_data s) := by
  refine ⟨?_, ?_, List.drop_suffix _ _⟩
  · rw [get_latest_bars, if_pos hs]
    unfold pySliceLast
    rw [if_neg (by omega)]
  · rw [List.length_drop]
    omega

/-- C6 amended witness: the amended statement applied with N = 5 exceeding the
2 bars revealed after 2 calls. -/
theorem get_latest_bars_min_length_witness :
    get_latest_bars (stepN exH 2) "A" 5
      = Except.ok (((stepN exH 2).latest_symbol_data "A").drop
          (((stepN exH 2).latest_symbol_data "A").length - 5)) ∧
    (((stepN exH 2).latest_symbol_data "A").drop
        (((stepN exH 2).latest_symbol_data "A").length - 5)).length
      = min 5 ((stepN exH 2).latest_symbol_data "A").length ∧
    (((stepN exH 2).latest_symbol_data "A").drop
        (((stepN exH 2).latest_symbol_data "A").length - 5)).IsSuffix
      ((stepN exH 2).latest_symbol_data "A") :=
  get_latest_bars_min_length (stepN exH 2) "A" 5 (by decide) (by decide)

/-- C7: every one of the five accessors, invoked with a symbol outside the
registered symbol list, propagates the unknown-symbol error (the re-raised
KeyError) to the caller, for every field name and every N. -/
theorem unknown_symbol_propagates (h : Handler) (s : String)
    (hs : s ∉ h.symbol_list) (val_type : String) (N : Nat) :
    get_latest_bar h s = Except.error PyError.keyError ∧
    get_latest_bars h s N = Except.error PyError.keyError ∧
    get_latest_bar_datetime h s = Except.error PyError.keyError ∧
    get_latest_bar_value h s val_type = Except.error PyError.keyError ∧
    get_latest_bars_values h s val_type N = Except.error PyError.keyError := by
  have hb : get_latest_bars h s N = Except.error PyError.keyError := by
    rw [get_latest_bars, if_neg hs]
  refine ⟨?_, hb, ?_, ?_, ?_⟩
  · rw [get_latest_bar, if_neg hs]
  · rw [get_latest_bar_datetime, if_neg hs]
  · rw [get_latest_bar_value, if_neg hs]
  · rw [get_latest_bars_values, hb]
    rfl

/-- C7 witness: the statement applied to the unregistered symbol Z on the
section 8 scenario handler. -/
theorem unknown_symbol_propagates_witness :
    get_latest_bar exH "Z" = Except.error PyError.keyError ∧
    get_latest_bars exH "Z" 2 = Except.error PyError.keyError ∧
    get_latest_bar_datetime exH "Z" = Except.error PyError.keyError ∧
    get_latest_bar_value exH "Z" "close" = Except.error PyError.keyError ∧
    get_latest_bars_values exH "Z" "close" 2 = Except.error PyError.keyError :=
  unknown_symbol_propagates exH "Z" (by decide) "close" 2

/-- C8: the continuation flag is true at construction; one update_bars call
leaves it true exactly when it was true and no registered symbol was found
exhausted during the call (so it turns false on the first call in which any
one symbol is exhausted); symbols whose series are not exhausted still receive
their next bar in that same call; and a false flag never becomes true again.
Per-symbol statements assume a duplicate-free registration list. -/
theorem continuation_flag_behavior :
    (∀ syms data h, mkHandler syms data = some h → h.continue_backtest = true) ∧
    (∀ h : Handler, h.symbol_list.Nodup →
      (update_bars h).continue_backtest
        = (h.continue_backtest
            && h.symbol_list.all fun s => decide (h.cursor s < (h.aligned s).length)) ∧
      ∀ s ∈ h.symbol_list,
        (update_bars h).latest_symbol_data s
          = h.latest_symbol_data s ++ ((h.aligned s).drop (h.cursor s)).take 1) ∧
    (∀ h : Handler, h.continue_backtest = false →
      (update_bars h).continue_backtest = false) := by
  refine ⟨?_, ?_, ?_⟩
  · intro syms data h hmk
    exact (mkHandler_some syms data h hmk).2.2.2.1
  · intro h hnd
    exact ⟨update_bars_flag h hnd, fun s hs => update_bars_lsd_mem h s hnd hs⟩
  · intro h hf
    exact foldl_pullBar_flag_false h.symbol_list h hf

/-- C8 witness: on the section 8 scenario the flag is true at construction,
turns false on the 4th call (the aligned length is 3) and stays false on the
5th. -/
theorem continuation_flag_behavior_witness :
    exH.continue_backtest = true ∧
    (update_bars (stepN exH 3)).continue_backtest = false ∧
    (update_bars (update_bars (stepN exH 3))).continue_backtest = false := by
  have h4 : (update_bars (stepN exH 3)).continue_backtest = false := by
    have hf := (continuation_flag_behavior.2.1 (stepN exH 3) (by decide)).1
    exact hf.trans (by decide)
  exact ⟨continuation_flag_behavior.1 exSyms exData exH rfl, h4,
    continuation_flag_behavior.2.2 _ h4⟩

/-- C9: every update_bars call, exhausted or not, puts exactly one payload
free MarketEvent on the event queue; and when every registered symbol's
aligned series is exhausted, the call is a no-op on every history buffer and
every cursor (and, the embedding being a total function, signals no error). -/
theorem update_bars_after_exhaustion :
    (∀ h : Handler, (update_bars h).events = h.events ++ [MarketEvent.mk]) ∧
    (∀ h : Handler, (∀ s ∈ h.symbol_list, (h.aligned s).length ≤ h.cursor s) →
      (update_bars h).latest_symbol_data = h.latest_symbol_data ∧
      (update_bars h).cursor = h.cursor) := by
  refine ⟨update_bars_events_eq, ?_⟩
  intro h hex
  have hfold := foldl_pullBar_exhausted h.symbol_list h hex
  exact ⟨hfold.2, hfold.1⟩

/-- C9 witness: the statement applied to the section 8 scenario handler after
4 calls, when both symbols are exhausted. -/
theorem update_bars_after_exhaustion_witness :
    (update_bars (stepN exH 4)).latest_symbol_data = (stepN exH 4).latest_symbol_data ∧
    (update_bars (stepN exH 4)).cursor = (stepN exH 4).cursor ∧
    (update_bars (stepN exH 4)).events = (stepN exH 4).events ++ [MarketEvent.mk] := by
  have h2 := update_bars_after_exhaustion.2 (stepN exH 4) (by decide)
  exact ⟨h2.1, h2.2, update_bars_after_exhaustion.1 (stepN exH 4)⟩

/-- C10: for a registered symbol whose history buffer is empty, the three
latest-bar accessors signal IndexError (bars_list[-1] on an empty list), not a
feed-defined error or a default, while get_latest_bars and
get_latest_bars_values return an empty sequence, for every field name and
every N. -/
theorem empty_buffer_accessor_behavior (h : Handler) (s : String)
    (hs : s ∈ h.symbol_list) (hb : h.latest_symbol_data s = [])
    (val_type : String) (N : Nat) :
    get_latest_bar h s = Except.error PyError.indexError ∧
    get_latest_bar_datetime h s = Except.error PyError.indexError ∧
    get_latest_bar_value h s val_type = Except.error PyError.indexError ∧
    get_latest_bars h s N = Except.ok [] ∧
    get_latest_bars_values h s val_type N = Except.ok [] := by
  have hnil : pySliceLast (h.latest_symbol_data s) N = [] := by
    rw [hb]
    unfold pySliceLast
    split
    · rfl
    · exact List.drop_nil
  have hbars : get_latest_bars h s N = Except.ok [] := by
    rw [get_latest_bars, if_pos hs, hnil]
  refine ⟨?_, ?_, ?_, hbars, ?_⟩
  · rw [get_latest_bar, hb]
    simp [hs]
  · rw [get_latest_bar_datetime, hb]
    simp [hs]
  · rw [get_latest_bar_value, hb]
    simp [hs]
  · rw [get_latest_bars_values, hbars]
    rfl

/-- C10 witness: the statement applied to symbol A of the freshly constructed
section 8 scenario handler, before any update_bars call. -/
theorem empty_buffer_accessor_behavior_witness :
    get_latest_bar exH "A" = Except.error PyError.indexError ∧
    get_latest_bar_datetime exH "A" = Except.error PyError.indexError ∧
    get_latest_bar_value exH "A" "close" = Except.error PyError.indexError ∧
    get_latest_bars exH "A" 3 = Except.ok [] ∧
    get_latest_bars_values exH "A" "close" 3 = Except.ok [] :=
  empty_buffer_accessor_behavior exH "A" (by decide) rfl "close" 3
